import Mathlib

set_option autoImplicit false

/-!
Shallow embedding of `src/http/request/multipart_channel/multipart_channel.go`
(package `main`): a streaming multipart/form-data request builder.  The Go
program couples a caller-facing builder (`NewMultipart`, `Param`, `Bool`,
`Int`, `Float`, `File`, `Header`, `Send`), a single encoding worker draining a
buffered channel (`bodyCh`, capacity 100), Go's `mime/multipart.Writer`
streaming into an `io.Pipe`, and an HTTP transport reading the pipe through a
`signalReader` that fires a start gate on its first `Read`.

Concurrency is embedded by sequentialisation: the channel linearises enqueue
completions, so the worker's input is the list of items in enqueue-completion
order; the pipe delivers every successfully written byte to the consumer in
order; `sync.Once` linearises concurrent first reads.  External collaborators
(Go's standard library) are embedded at their documented interfaces:
`mime/multipart.Writer` by the exact bytes it emits, `io.Pipe` by its
delivered-bytes/abort-error behaviour (first close error sticks), the HTTP
transport by the spec's collaborator contract (consumes the body stream,
returns a response, or passes a body-read abort error through).
-/

/-- Go `error` values, embedded as their message/identity. -/
abbrev GoErr := String

/-- Go run-time panics the embedded operations can raise. -/
inductive GoPanic where
  | nilPointerDeref
  | sendOnClosedChannel
  deriving DecidableEq, Repr

/-- An `io.Reader` content stream for a file part: reading yields `data` and
then either EOF (`err = none`) or the error `err`.  `io.Copy(part, content)`
therefore writes exactly `data` and returns `err`. -/
structure GoReader where
  data : String
  err : Option GoErr
  deriving DecidableEq, Repr

/-- Go source: `type requestType int` with `stringType` and `fileType`. -/
inductive requestType where
  | stringType
  | fileType
  deriving DecidableEq, Repr

/-- Go source: `type request struct { reqType requestType; key, value string;
content io.Reader }` — one queued work item. -/
structure request where
  reqType : requestType
  key : String
  value : String
  content : GoReader
  deriving DecidableEq, Repr

/-- Go buffered channel of `request` (`make(chan request, 100)` has `cap =
100`): a FIFO buffer plus a closed flag. -/
structure Chan where
  buf : List request
  cap : Nat
  closed : Bool
  deriving DecidableEq, Repr

/-- Outcome of a Go channel send: delivered into the buffer, would block
because the buffer is full (until a receiver drains one), or a run-time panic
because the channel is closed. -/
inductive ChanSendResult where
  | ok (c : Chan)
  | blocked
  | panicked
  deriving DecidableEq, Repr

/-- Go channel send semantics: sending on a closed channel panics; otherwise
the value is appended if the buffer has room, else the send blocks. -/
def Chan.send (c : Chan) (x : request) : ChanSendResult :=
  if c.closed then .panicked
  else if c.buf.length < c.cap then .ok { c with buf := c.buf ++ [x] }
  else .blocked

/-- `close(ch)`: marks the channel closed; buffered items stay receivable. -/
def Chan.close (c : Chan) : Chan := { c with closed := true }

/-- The channel `NewMultipart` creates: `make(chan request, 100)`. -/
def newBodyCh : Chan := { buf := [], cap := 100, closed := false }

/-! ### Go `mime/multipart.Writer`, embedded by the bytes it emits

From Go's `mime/multipart/writer.go`: `CreatePart` emits `--boundary\r\n`
(preceded by `\r\n` when a previous part exists), then the sorted header
lines, then a blank line; `WriteField` is `CreateFormField` followed by
writing the value; `CreateFormFile` adds a `filename` parameter and a
`Content-Type: application/octet-stream` header; `Close` emits
`\r\n--boundary--\r\n`.  Header keys sort as `Content-Disposition` before
`Content-Type`. -/

/-- Go `mime/multipart.escapeQuotes`: replaces `\` with `\\` and the double
quote with `\"` in `name=`/`filename=` parameter values. -/
def escapeQuotes (s : String) : String :=
  s.toList.foldr
    (fun c acc =>
      if c = '\\' then "\\\\" ++ acc
      else if c = '\x22' then "\\\x22" ++ acc
      else String.singleton c ++ acc) ""

/-- The section-opening delimiter emitted by `CreatePart`: `\r\n--boundary\r\n`
after a previous part, `--boundary\r\n` for the first part. -/
def partDelim (boundary : String) (hasPart : Bool) : String :=
  (if hasPart then "\r\n" else "") ++ "--" ++ boundary ++ "\r\n"

/-- Bytes `WriteField(key, value)` emits: the delimiter of `CreatePart`, the
`Content-Disposition` header line, a blank line, then the field value. -/
def writeFieldBytes (boundary : String) (hasPart : Bool) (key value : String) : String :=
  partDelim boundary hasPart ++
    "Content-Disposition: form-data; name=\x22" ++ escapeQuotes key ++ "\x22\r\n" ++
    "\r\n" ++ value

/-- Bytes `CreateFormFile(key, filename)` emits: the delimiter, the
`Content-Disposition` line with a `filename` parameter, the
`Content-Type: application/octet-stream` line, then a blank line. -/
def createFormFileBytes (boundary : String) (hasPart : Bool) (key filename : String) : String :=
  partDelim boundary hasPart ++
    "Content-Disposition: form-data; name=\x22" ++ escapeQuotes key ++
    "\x22; filename=\x22" ++ escapeQuotes filename ++ "\x22\r\n" ++
    "Content-Type: application/octet-stream\r\n" ++
    "\r\n"

/-- Bytes `multipart.Writer.Close` emits: the terminal boundary line
`\r\n--boundary--\r\n`. -/
def closeBoundaryBytes (boundary : String) : String :=
  "\r\n--" ++ boundary ++ "--\r\n"

/-- Characters that force `FormDataContentType` to quote the boundary
parameter (Go: ``strings.ContainsAny(b, `()<>@,;:\"/[]?= `)``). -/
def boundaryQuoteChars : List Char :=
  ['(', ')', '<', '>', '@', ',', ';', ':', '\\', '\x22', '/', '[', ']', '?', '=', ' ']

/-- Whether `FormDataContentType` quotes the boundary parameter. -/
def needsQuote (b : String) : Bool :=
  b.toList.any (fun c => boundaryQuoteChars.contains c)

/-- Go `multipart.Writer.FormDataContentType`: the `Content-Type` header value,
quoting the boundary only when it contains special characters (the generated
random boundary is hexadecimal and is never quoted). -/
def formDataContentType (b : String) : String :=
  if needsQuote b then "multipart/form-data; boundary=\x22" ++ b ++ "\x22"
  else "multipart/form-data; boundary=" ++ b

/-! ### The encoding worker -/

/-- Result of one run of the worker loop (`(*Multipart).worker`, lines 71-90):
the writer's `lastpart`-exists flag on exit, the bytes emitted to the pipe (the
pipe delivers every successfully written byte, in order), the error passed to
`pw.CloseWithError` if an item failed, how many items were taken from the
channel, and the enqueued items the worker never received because it returned
early. -/
structure WorkerRes where
  hasPart : Bool
  out : String
  abortErr : Option GoErr
  processed : Nat
  leftover : List request
  deriving DecidableEq, Repr

/-- The worker loop (`for req := range m.bodyCh`), draining the channel's items
in FIFO order.  A `stringType` item is `mw.WriteField(key, value)`; a
`fileType` item is `mw.CreateFormFile(key, value)` followed by
`io.Copy(part, content)`.  Writes to the sink fail only once the pipe is
broken, which in the modelled scenarios never precedes the worker's own abort,
so the failing operation is the content copy: on `err != nil` the worker calls
`pw.CloseWithError(err)` and returns, leaving the rest of the queue
undrained. -/
def workerDrain (boundary : String) (hasPart : Bool) : List request → WorkerRes
  | [] => ⟨hasPart, "", none, 0, []⟩
  | it :: rest =>
    match it.reqType with
    | .stringType =>
      let r := workerDrain boundary true rest
      ⟨r.hasPart, writeFieldBytes boundary hasPart it.key it.value ++ r.out,
        r.abortErr, r.processed + 1, r.leftover⟩
    | .fileType =>
      match it.content.err with
      | some e =>
        ⟨true, createFormFileBytes boundary hasPart it.key it.value ++ it.content.data,
          some e, 1, rest⟩
      | none =>
        let r := workerDrain boundary true rest
        ⟨r.hasPart,
          createFormFileBytes boundary hasPart it.key it.value ++ it.content.data ++ r.out,
          r.abortErr, r.processed + 1, r.leftover⟩

/-- Whether an item encodes without error: field writes succeed while the pipe
is intact, and a file item succeeds exactly when its content stream does. -/
def itemOk (it : request) : Bool :=
  match it.reqType with
  | .stringType => true
  | .fileType => it.content.err.isNone

/-- Specification-level bytes of one multipart section, for comparison with
the worker's output. -/
def sectionBytes (boundary : String) (hasPart : Bool) (it : request) : String :=
  match it.reqType with
  | .stringType => writeFieldBytes boundary hasPart it.key it.value
  | .fileType => createFormFileBytes boundary hasPart it.key it.value ++ it.content.data

/-- Specification-level list of section byte strings, in list order. -/
def bodySections (boundary : String) : Bool → List request → List String
  | _, [] => []
  | hasPart, it :: rest => sectionBytes boundary hasPart it :: bodySections boundary true rest

/-- Concatenation of a list of byte strings, in order. -/
def concatAll : List String → String
  | [] => ""
  | s :: rest => s ++ concatAll rest

/-- Specification-level whole multipart body: the sections in order followed by
the terminal boundary. -/
def multipartBody (boundary : String) (items : List request) : String :=
  concatAll (bodySections boundary false items) ++ closeBoundaryBytes boundary

/-! ### The start gate (`signalReader`) and the pipe's consumer side -/

/-- What a read on the conduit's consumer side returns: bytes, clean EOF after
`pw.Close()`, the abort error after `pw.CloseWithError(err)`, or it blocks
until the producer acts. -/
inductive PipeReadResult where
  | bytes (s : String)
  | eof
  | errored (e : GoErr)
  | wouldBlock
  deriving DecidableEq, Repr

/-- Consumer-visible state of the `io.Pipe`. -/
inductive PipeState where
  | empty
  | pending (s : String)
  | closedClean
  | closedErr (e : GoErr)
  deriving DecidableEq, Repr

/-- What one pipe read yields in each pipe state. -/
def pipeRead : PipeState → PipeReadResult
  | .empty => .wouldBlock
  | .pending s => .bytes s
  | .closedClean => .eof
  | .closedErr e => .errored e

/-- Go source: `type signalReader struct` — the one-shot start gate.  `fired`
models `startedCh` being closed, i.e. the `sync.Once` body having run. -/
structure signalReader where
  fired : Bool
  deriving DecidableEq, Repr

/-- Result of one `signalReader.Read` call: the gate state after the call,
whether this call's `once.Do` ran the close (fired the gate now), and the
delegated pipe read.  `once.Do` runs before `r.reader.Read(p)`, so the gate
fires even when the delegated read would block; `sync.Once` serialises
concurrent first reads, so any interleaving is a sequence of these calls. -/
structure ReadStep where
  gate : signalReader
  firedNow : Bool
  result : PipeReadResult
  deriving DecidableEq, Repr

/-- `(*signalReader).Read` (lines 19-24): fire the gate if not yet fired, then
delegate to the wrapped reader. -/
def signalReader.Read (r : signalReader) (p : PipeState) : ReadStep :=
  ⟨⟨true⟩, !r.fired, pipeRead p⟩

/-- A trace of `n` consecutive `Read` calls (any linearisation of concurrent
readers): the final gate state and how many of the calls fired the gate. -/
def readTrace (p : PipeState) : signalReader → Nat → signalReader × Nat
  | r, 0 => (r, 0)
  | r, n + 1 =>
    let step := r.Read p
    let rest := readTrace p step.gate n
    (rest.1, (if step.firedNow then 1 else 0) + rest.2)

/-- `<-m.startedCh` (line 132) is unblocked exactly when the gate has fired
(the channel is closed). -/
def awaitStartUnblocked (r : signalReader) : Bool := r.fired

/-! ### The builder (`Multipart`) and its constructor -/

/-- The outgoing `*http.Request`: method, URL and its mutable header set
(an association list, `Header.Set` replacing any previous value). -/
structure Request where
  method : String
  url : String
  headers : List (String × String)
  deriving DecidableEq, Repr

/-- `req.Header.Set(key, value)`: replace the value under `key`, or append. -/
def headerSet (hs : List (String × String)) (key value : String) : List (String × String) :=
  match hs with
  | [] => [(key, value)]
  | (k, v) :: rest => if k = key then (key, value) :: rest else (k, v) :: headerSet rest key value

/-- Look a header up, for stating what `Header.Set` changed. -/
def headerGet (hs : List (String × String)) (key : String) : Option String :=
  match hs with
  | [] => none
  | (k, v) :: rest => if k = key then some v else headerGet rest key

/-- Go `net/http` token characters (RFC 7230 `tchar`): an HTTP method must
consist of these. -/
def isTokenChar (c : Char) : Bool :=
  c.isAlpha || c.isDigit ||
    ['!', '#', '$', '%', '&', Char.ofNat 39, '*', '+', '-', '.', '^', '_',
      Char.ofNat 96, '|', '~'].contains c

/-- Go `net/http.validMethod`: non-empty and all token characters. -/
def validMethod (m : String) : Bool :=
  m ≠ "" && m.toList.all isTokenChar

/-- Go `http.NewRequestWithContext` at its interface: an empty method defaults
to `GET`; an invalid method makes construction fail, returning a nil request
and an error.  (URL parse failures, a further failure mode of the real
function, are elided: the model only needs that construction can reject its
input, and every rejection yields a nil request.) -/
def newRequestWithContext (method url : String) : Option Request :=
  let m := if method = "" then "GET" else method
  if validMethod m then some ⟨m, url, []⟩ else none

/-- Go source: `type Multipart struct` — the builder.  The pipe writer, the
multipart writer and the worker are represented by the boundary, the writer's
`lastpart` flag and the channel the worker will drain; `req` keeps the
constructed request. -/
structure Multipart where
  boundary : String
  hasPart : Bool
  bodyCh : Chan
  req : Request
  deriving DecidableEq, Repr

/-- The builder state `NewMultipart` hands back when request construction
succeeded: fresh boundary from `multipart.NewWriter`, no part written yet, the
freshly made capacity-100 channel, and the request with its `Content-Type`
header set from `m.mw.FormDataContentType()`. -/
def freshBuilder (boundary : String) (req : Request) : Multipart :=
  { boundary := boundary
    hasPart := false
    bodyCh := newBodyCh
    req := { req with headers := headerSet req.headers "Content-Type" (formDataContentType boundary) } }

/-- `NewMultipart` (lines 49-69).  The error of `http.NewRequestWithContext`
is discarded (`m.req, _ = ...`); when construction failed the very next line,
`m.req.Header.Set("Content-Type", ...)`, dereferences the nil `*http.Request`
and panics inside the constructor.  `boundary` stands for the random boundary
`multipart.NewWriter` drew. -/
def NewMultipart (boundary method url : String) : Except GoPanic Multipart :=
  match newRequestWithContext method url with
  | none => .error .nilPointerDeref
  | some req => .ok (freshBuilder boundary req)

/-! ### Enqueue methods and `Header` -/

/-- Outcome of a chainable enqueue call: the builder after the send completed,
a block (queue full, waiting for the worker to drain one), or the send-on-
closed-channel panic. -/
inductive EnqueueResult where
  | ok (m : Multipart)
  | blocked
  | panicked
  deriving DecidableEq, Repr

/-- Lift a channel-send outcome back into the builder. -/
def Multipart.enqueue (m : Multipart) (it : request) : EnqueueResult :=
  match m.bodyCh.send it with
  | .ok c => .ok { m with bodyCh := c }
  | .blocked => .blocked
  | .panicked => .panicked

/-- `(*Multipart).Param` (lines 92-95): `m.bodyCh <- request{stringType, key,
value}`, then return the builder. -/
def Multipart.Param (m : Multipart) (key value : String) : EnqueueResult :=
  m.enqueue ⟨.stringType, key, value, ⟨"", none⟩⟩

/-- Go `strconv.FormatBool`. -/
def strconvFormatBool (b : Bool) : String := if b then "true" else "false"

/-- Go `strconv.Itoa`: the canonical decimal representation of the integer. -/
def strconvItoa (n : Int) : String := toString n

/-- `(*Multipart).Bool` (lines 97-99): `m.Param(key, strconv.FormatBool(value))`. -/
def Multipart.Bool (m : Multipart) (key : String) (value : Bool) : EnqueueResult :=
  m.Param key (strconvFormatBool value)

/-- IEEE-754 float64 arguments of `Float`.  Their only use is being formatted
by `strconv.FormatFloat(value, 102, -1, 64)` (verb f), an external standard-
library function on doubles that the embedding abstracts as the `fmtFloat`
argument below. -/
def GoFloat := Float

/-- `(*Multipart).Float` (lines 101-103): `m.Param(key,
strconv.FormatFloat(value, 102, -1, 64))` with the formatter abstracted. -/
def Multipart.Float (fmtFloat : GoFloat → String) (m : Multipart) (key : String)
    (value : GoFloat) : EnqueueResult :=
  m.Param key (fmtFloat value)

/-- `(*Multipart).Int` (lines 105-107): `m.Param(key, strconv.Itoa(value))`. -/
def Multipart.Int (m : Multipart) (key : String) (value : Int) : EnqueueResult :=
  m.Param key (strconvItoa value)

/-- `(*Multipart).File` (lines 109-112): `m.bodyCh <- request{fileType, key,
filename, content}`, then return the builder. -/
def Multipart.File (m : Multipart) (key filename : String) (content : GoReader) : EnqueueResult :=
  m.enqueue ⟨.fileType, key, filename, content⟩

/-- `(*Multipart).Header` (lines 114-117): `m.req.Header.Set(key, value)`;
touches only the request's header set and returns the builder. -/
def Multipart.Header (m : Multipart) (key value : String) : Multipart :=
  { m with req := { m.req with headers := headerSet m.req.headers key value } }

/-! ### `Send` -/

/-- The transport collaborator's response descriptor; `body` records the byte
stream the transport consumed from the conduit, which is what the demo servers
echo and what the ordering claims are about. -/
structure Response where
  body : String
  deriving DecidableEq, Repr

/-- Everything observable when `Send` returns: the single outcome (`resp` from
`respCh` or `err` from `errCh`), the builder state afterwards, the bytes the
consumer received before EOF or abort, how many items the worker encoded, and
that `m.wg.Wait()` joined the worker before returning. -/
structure SendRes where
  resp : Option Response
  err : Option GoErr
  post : Multipart
  delivered : String
  processed : Nat
  workerJoined : Bool
  deriving DecidableEq, Repr

/-- `(*Multipart).Send` (lines 119-145), sequentialised along the one
interleaving its synchronisation enforces once the transport's first body read
fires the start gate (`once.Do` runs before the blocking pipe read, so the
gate fires even before any bytes exist):

1. the transport goroutine runs `m.client.Do(m.req)` against the pipe;
2. `<-m.startedCh` unblocks after the transport's first read;
3. `close(m.bodyCh)` ends the worker's range loop after the buffered items;
4. the worker drains them (`workerDrain`); `m.wg.Wait()` joins it;
5. on worker abort, `pw.CloseWithError(err)` already holds the first error
   (`io.Pipe` keeps the first close error), so `m.mw.Close()`'s write fails
   (its error is discarded) and `m.pw.Close()` is a no-op; the transport's
   body read fails with that error and `client.Do` passes it through
   (the spec's transport contract), landing in `errCh`;
6. otherwise `m.mw.Close()` emits the terminal boundary, `m.pw.Close()` gives
   clean EOF, the transport finishes with a response in `respCh`;
7. the `select` returns the single outcome that arrived. -/
def Multipart.Send (m : Multipart) : SendRes :=
  let closed := m.bodyCh.close
  let w := workerDrain m.boundary m.hasPart closed.buf
  match w.abortErr with
  | some e =>
    { resp := none
      err := some e
      post := { m with hasPart := w.hasPart, bodyCh := { closed with buf := w.leftover } }
      delivered := w.out
      processed := w.processed
      workerJoined := true }
  | none =>
    { resp := some ⟨w.out ++ closeBoundaryBytes m.boundary⟩
      err := none
      post := { m with hasPart := w.hasPart, bodyCh := { closed with buf := w.leftover } }
      delivered := w.out ++ closeBoundaryBytes m.boundary
      processed := w.processed
      workerJoined := true }

/-! ### Helper lemmas -/

theorem strAppend_assoc (a b c : String) : a ++ b ++ c = a ++ (b ++ c) := by
  cases a; cases b; cases c
  show String.append (String.append _ _) _ = String.append _ (String.append _ _)
  simp [String.append]

theorem strAppend_empty (a : String) : a ++ "" = a := by
  cases a
  show String.append _ _ = _
  simp [String.append]

theorem strEmpty_append (a : String) : "" ++ a = a := by
  cases a
  show String.append _ _ = _
  simp [String.append]

theorem headerGet_headerSet (hs : List (String × String)) (k v : String) :
    headerGet (headerSet hs k v) k = some v := by
  induction hs with
  | nil => simp [headerSet, headerGet]
  | cons kv rest ih =>
    obtain ⟨k1, v1⟩ := kv
    by_cases h : k1 = k
    · simp [headerSet, headerGet, h]
    · simp [headerSet, headerGet, h, ih]

/-- Running the caller's chained enqueue calls in completion order: the builder
after all of them, or `none` if one blocked or panicked. -/
def enqueueAll : Multipart → List request → Option Multipart
  | m, [] => some m
  | m, it :: rest =>
    match m.enqueue it with
    | .ok m2 => enqueueAll m2 rest
    | .blocked => none
    | .panicked => none

theorem enqueueAll_some (items : List request) :
    ∀ m m' : Multipart, enqueueAll m items = some m' →
      m'.boundary = m.boundary ∧ m'.hasPart = m.hasPart ∧ m'.req = m.req ∧
      m'.bodyCh.closed = m.bodyCh.closed ∧ m'.bodyCh.cap = m.bodyCh.cap ∧
      m'.bodyCh.buf = m.bodyCh.buf ++ items := by
  induction items with
  | nil =>
    intro m m' h
    simp [enqueueAll] at h
    subst h
    simp
  | cons it rest ih =>
    intro m m' h
    cases hcl : m.bodyCh.closed with
    | true => simp [enqueueAll, Multipart.enqueue, Chan.send, hcl] at h
    | false =>
      by_cases hlt : m.bodyCh.buf.length < m.bodyCh.cap
      · simp [enqueueAll, Multipart.enqueue, Chan.send, hcl, hlt] at h
        obtain ⟨h1, h2, h3, h4, h5, h6⟩ := ih _ _ h
        refine ⟨h1, h2, h3, by simpa using h4, by simpa using h5, ?_⟩
        simpa [List.append_assoc] using h6
      · simp [enqueueAll, Multipart.enqueue, Chan.send, hcl, hlt] at h

theorem enqueueAll_isSome (items : List request) :
    ∀ m : Multipart, m.bodyCh.closed = false →
      m.bodyCh.buf.length + items.length ≤ m.bodyCh.cap →
      (enqueueAll m items).isSome = true := by
  induction items with
  | nil => intro m _ _; simp [enqueueAll]
  | cons it rest ih =>
    intro m hcl hlen
    have hlt : m.bodyCh.buf.length < m.bodyCh.cap := by
      simp [List.length_cons] at hlen
      omega
    simp [enqueueAll, Multipart.enqueue, Chan.send, hcl, hlt]
    apply ih
    · simp
    · simp [List.length_append]
      simp [List.length_cons] at hlen
      omega

theorem workerDrain_append_ok (b : String) (rest : List request) :
    ∀ (pre : List request) (hp : Bool), (∀ it ∈ pre, itemOk it = true) →
      workerDrain b hp (pre ++ rest) =
        { hasPart := (workerDrain b (if pre.isEmpty then hp else true) rest).hasPart
          out := concatAll (bodySections b hp pre) ++
            (workerDrain b (if pre.isEmpty then hp else true) rest).out
          abortErr := (workerDrain b (if pre.isEmpty then hp else true) rest).abortErr
          processed := pre.length + (workerDrain b (if pre.isEmpty then hp else true) rest).processed
          leftover := (workerDrain b (if pre.isEmpty then hp else true) rest).leftover } := by
  intro pre
  induction pre with
  | nil =>
    intro hp _
    simp [bodySections, concatAll, strEmpty_append]
  | cons it pre ih =>
    intro hp h
    have hit : itemOk it = true := h it (by simp)
    have hpre : ∀ x ∈ pre, itemOk x = true := fun x hx => h x (by simp [hx])
    obtain ⟨rt, k, v, c⟩ := it
    cases rt with
    | stringType =>
      simp only [List.cons_append, workerDrain, List.append_eq]
      rw [ih true hpre]
      simp [bodySections, sectionBytes, concatAll, strAppend_assoc, List.isEmpty_cons]
      omega
    | fileType =>
      have hc : c.err = none := by
        simpa [itemOk, Option.isNone_iff_eq_none] using hit
      simp only [List.cons_append, workerDrain, hc, List.append_eq]
      rw [ih true hpre]
      simp [bodySections, sectionBytes, concatAll, strAppend_assoc, List.isEmpty_cons]
      omega

theorem workerDrain_allOk (b : String) (items : List request) (hp : Bool)
    (h : ∀ it ∈ items, itemOk it = true) :
    workerDrain b hp items =
      { hasPart := if items.isEmpty then hp else true
        out := concatAll (bodySections b hp items)
        abortErr := none
        processed := items.length
        leftover := [] } := by
  have hx := workerDrain_append_ok b [] items hp h
  simpa [workerDrain, strAppend_empty] using hx

theorem readTrace_fired (p : PipeState) : ∀ n, readTrace p ⟨true⟩ n = (⟨true⟩, 0) := by
  intro n
  induction n with
  | zero => rfl
  | succ n ih => simp [readTrace, signalReader.Read, ih]

/-! ### Concrete material for witnesses -/

/-- A concrete well-formed request for witnesses. -/
def reqW : Request := ⟨"POST", "http://example.com", []⟩

/-- A concrete scalar-field work item (`Param("a", "1")`). -/
def itP : request := ⟨.stringType, "a", "1", ⟨"", none⟩⟩

/-- A concrete file work item with a healthy content stream
(`File("f", "x.txt", strings.NewReader("hi"))`). -/
def itF : request := ⟨.fileType, "f", "x.txt", ⟨"hi", none⟩⟩

/-- A concrete file work item whose content stream fails after two bytes. -/
def itBad : request := ⟨.fileType, "g", "y.txt", ⟨"pa", some "content read failed"⟩⟩

/-! ### Claims -/

/-- Claim C3: for a builder on which zero items were ever appended, `Send` does
not deadlock: the start gate fires on the transport's very first read attempt
(before the delegated pipe read, even though the pipe is still empty), so the
wait on `startedCh` unblocks, the worker drains nothing, and the body delivered
to the consumer is exactly the terminal boundary that `mw.Close()` emits; `Send`
returns the transport's successful outcome. -/
theorem send_empty_terminal_boundary (b : String) (req : Request) :
    ((freshBuilder b req).Send).err = none ∧
    ((freshBuilder b req).Send).resp = some ⟨"\r\n--" ++ b ++ "--\r\n"⟩ ∧
    ((freshBuilder b req).Send).delivered = closeBoundaryBytes b ∧
    ((freshBuilder b req).Send).processed = 0 ∧
    (signalReader.Read ⟨false⟩ PipeState.empty).firedNow = true ∧
    awaitStartUnblocked (signalReader.Read ⟨false⟩ PipeState.empty).gate = true := by
  refine ⟨?_, ?_, ?_, ?_, rfl, rfl⟩ <;>
    simp [Multipart.Send, freshBuilder, newBodyCh, Chan.close, workerDrain,
      closeBoundaryBytes, strEmpty_append]

/-- Claim C5: the start gate fires exactly once, on the first `Read` of the
consumer-side wrapper: over any trace of `n ≥ 1` reads (any linearisation of
concurrent attempts, `sync.Once` serialising them) exactly one call fires the
signal; once fired it stays fired over any further `k` reads, which fire
nothing; and `Send`'s wait on the gate is unblocked once it has fired. -/
theorem startGate_fires_exactly_once (p : PipeState) (n k : Nat) (h : 1 ≤ n) :
    (readTrace p ⟨false⟩ n).1.fired = true ∧
    (readTrace p ⟨false⟩ n).2 = 1 ∧
    (readTrace p ⟨true⟩ k).1.fired = true ∧
    (readTrace p ⟨true⟩ k).2 = 0 ∧
    awaitStartUnblocked (readTrace p ⟨false⟩ n).1 = true := by
  obtain ⟨n', rfl⟩ : ∃ n', n = n' + 1 := ⟨n - 1, by omega⟩
  have h1 := readTrace_fired p n'
  have h2 := readTrace_fired p k
  refine ⟨?_, ?_, ?_, ?_, ?_⟩ <;>
    simp [readTrace, signalReader.Read, h1, h2, awaitStartUnblocked]

/-- Witness for C5 at a concrete trace: three reads on an empty pipe. -/
theorem startGate_fires_exactly_once_witness :
    1 ≤ 3 ∧
    ((readTrace PipeState.empty ⟨false⟩ 3).1.fired = true ∧
      (readTrace PipeState.empty ⟨false⟩ 3).2 = 1 ∧
      (readTrace PipeState.empty ⟨true⟩ 5).1.fired = true ∧
      (readTrace PipeState.empty ⟨true⟩ 5).2 = 0 ∧
      awaitStartUnblocked (readTrace PipeState.empty ⟨false⟩ 3).1 = true) :=
  ⟨by decide, startGate_fires_exactly_once PipeState.empty 3 5 (by decide)⟩

/-- Claim C6: `Send` delivers exactly one outcome — a response or an error,
never both — and by the time it returns the worker has been joined
(`m.wg.Wait()` precedes the return) and the queue is closed; the single
outcome is the one the transport goroutine put in its one-slot channel. -/
theorem send_single_outcome (m : Multipart) :
    (((m.Send).resp.isSome = true ∧ (m.Send).err = none) ∨
      ((m.Send).resp = none ∧ (m.Send).err.isSome = true)) ∧
    (m.Send).workerJoined = true ∧
    (m.Send).post.bodyCh.closed = true := by
  cases habort : (workerDrain m.boundary m.hasPart m.bodyCh.buf).abortErr with
  | none => simp [Multipart.Send, Chan.close, habort]
  | some e => simp [Multipart.Send, Chan.close, habort]

/-- Claim C7: `Bool`, `Int` and `Float` are pure formatting wrappers over
`Param`: `Bool` passes lowercase true/false, `Int` the canonical decimal
representation (`Nat.repr` for nonnegative, a minus sign and `Nat.repr` of the
magnitude for negative), `Float` the output of the abstracted
`strconv.FormatFloat(value, 102, -1, 64)`; and such a call enqueues exactly
the one `Param` item, nothing else. -/
theorem convenience_wrappers (m : Multipart) (kk : String) (bv : Bool) (n : Nat)
    (x : GoFloat) (fmtFloat : GoFloat → String)
    (h1 : m.bodyCh.closed = false) (h2 : m.bodyCh.buf.length < m.bodyCh.cap) :
    m.Bool kk true = m.Param kk "true" ∧
    m.Bool kk false = m.Param kk "false" ∧
    m.Int kk (Int.ofNat n) = m.Param kk (Nat.repr n) ∧
    m.Int kk (Int.negSucc n) = m.Param kk ("-" ++ Nat.repr (n + 1)) ∧
    Multipart.Float fmtFloat m kk x = m.Param kk (fmtFloat x) ∧
    m.Bool kk bv = .ok { m with bodyCh := { m.bodyCh with
      buf := m.bodyCh.buf ++ [⟨.stringType, kk, strconvFormatBool bv, ⟨"", none⟩⟩] } } := by
  refine ⟨rfl, rfl, rfl, rfl, rfl, ?_⟩
  simp [Multipart.Bool, Multipart.Param, Multipart.enqueue, Chan.send, h1, h2]

/-- A concrete IEEE-754 double for the C7 witness. -/
def floatW : GoFloat := (1.5 : Float)

/-- Witness for C7 on a fresh builder with concrete arguments. -/
theorem convenience_wrappers_witness :
    ((freshBuilder "bnd" reqW).bodyCh.closed = false ∧
      (freshBuilder "bnd" reqW).bodyCh.buf.length < (freshBuilder "bnd" reqW).bodyCh.cap) ∧
    ((freshBuilder "bnd" reqW).Bool "flag" true = (freshBuilder "bnd" reqW).Param "flag" "true" ∧
      (freshBuilder "bnd" reqW).Bool "flag" false = (freshBuilder "bnd" reqW).Param "flag" "false" ∧
      (freshBuilder "bnd" reqW).Int "flag" (Int.ofNat 7) = (freshBuilder "bnd" reqW).Param "flag" (Nat.repr 7) ∧
      (freshBuilder "bnd" reqW).Int "flag" (Int.negSucc 7) = (freshBuilder "bnd" reqW).Param "flag" ("-" ++ Nat.repr (7 + 1)) ∧
      Multipart.Float (fun _ => "1.5") (freshBuilder "bnd" reqW) "flag" floatW =
        (freshBuilder "bnd" reqW).Param "flag" "1.5" ∧
      (freshBuilder "bnd" reqW).Bool "flag" true = .ok { freshBuilder "bnd" reqW with
        bodyCh := { (freshBuilder "bnd" reqW).bodyCh with
          buf := (freshBuilder "bnd" reqW).bodyCh.buf ++
            [⟨.stringType, "flag", strconvFormatBool true, ⟨"", none⟩⟩] } }) :=
  ⟨⟨rfl, by decide⟩,
    convenience_wrappers (freshBuilder "bnd" reqW) "flag" true 7 floatW
      (fun _ => "1.5") rfl (by decide)⟩

/-- Claim C1: the worker drains and encodes the enqueued items in exactly the
order the enqueue calls completed (the channel's linearisation, whatever
goroutine issued each call): the delivered wire body is the in-order
concatenation of each item's section — each item encoded exactly once, none
reordered, none dropped — followed by the terminal boundary. -/
theorem worker_preserves_enqueue_order (b : String) (req : Request)
    (items : List request) (m : Multipart)
    (henq : enqueueAll (freshBuilder b req) items = some m)
    (hok : ∀ it ∈ items, itemOk it = true) :
    (m.Send).err = none ∧
    (m.Send).resp = some ⟨multipartBody b items⟩ ∧
    (m.Send).delivered = multipartBody b items ∧
    (m.Send).processed = items.length ∧
    (m.Send).post.bodyCh.buf = [] := by
  obtain ⟨hb, hhp, hreq, hcl, hcap, hbuf⟩ := enqueueAll_some items _ _ henq
  simp only [freshBuilder, newBodyCh, List.nil_append] at hb hhp hbuf
  have hdrain := workerDrain_allOk b items false hok
  refine ⟨?_, ?_, ?_, ?_, ?_⟩ <;>
    simp [Multipart.Send, Chan.close, hb, hhp, hbuf, hdrain, multipartBody]

/-- The concrete builder state after enqueuing `itP` then `itF`. -/
def mW1 : Multipart := { freshBuilder "bnd" reqW with bodyCh := ⟨[itP, itF], 100, false⟩ }

/-- Witness for C1: two concrete items, a field then a file. -/
theorem worker_preserves_enqueue_order_witness :
    enqueueAll (freshBuilder "bnd" reqW) [itP, itF] = some mW1 ∧
    itemOk itP = true ∧ itemOk itF = true ∧
    ((mW1.Send).err = none ∧
      (mW1.Send).resp = some ⟨multipartBody "bnd" [itP, itF]⟩ ∧
      (mW1.Send).delivered = multipartBody "bnd" [itP, itF] ∧
      (mW1.Send).processed = ([itP, itF] : List request).length ∧
      (mW1.Send).post.bodyCh.buf = []) :=
  ⟨rfl, rfl, rfl,
    worker_preserves_enqueue_order "bnd" reqW [itP, itF] mW1 rfl (by decide)⟩

/-- Claim C2: if the K-th enqueued item fails to encode, the worker aborts
the conduit with exactly that error and drains nothing further: the delivered
bytes are the intact sections of items 1..K-1 plus the failing item's partial
bytes, the worker processed exactly K items, the later items stay undrained in
the closed channel, and `Send` returns that encoding error (passed through the
transport), not a transport-generated one, with no response. -/
theorem worker_error_short_circuit (b : String) (req : Request)
    (pre post : List request) (bad : request) (e : GoErr) (m : Multipart)
    (henq : enqueueAll (freshBuilder b req) (pre ++ bad :: post) = some m)
    (hpre : ∀ it ∈ pre, itemOk it = true)
    (hbad : bad.reqType = .fileType)
    (herr : bad.content.err = some e) :
    (m.Send).err = some e ∧
    (m.Send).resp = none ∧
    (m.Send).delivered = concatAll (bodySections b false pre) ++
      (createFormFileBytes b (!pre.isEmpty) bad.key bad.value ++ bad.content.data) ∧
    (m.Send).processed = pre.length + 1 ∧
    (m.Send).post.bodyCh.buf = post := by
  obtain ⟨hb, hhp, hreq, hcl, hcap, hbuf⟩ := enqueueAll_some _ _ _ henq
  simp only [freshBuilder, newBodyCh, List.nil_append] at hb hhp hbuf
  have hflag : (if pre.isEmpty then false else true) = !pre.isEmpty := by
    cases h : pre.isEmpty <;> simp
  have hstep : workerDrain b (!pre.isEmpty) (bad :: post) =
      ⟨true, createFormFileBytes b (!pre.isEmpty) bad.key bad.value ++ bad.content.data,
        some e, 1, post⟩ := by
    obtain ⟨rt, k2, v2, c2⟩ := bad
    simp only at hbad herr
    subst hbad
    simp [workerDrain, herr]
  have happ := workerDrain_append_ok b (bad :: post) pre false hpre
  rw [hflag, hstep] at happ
  refine ⟨?_, ?_, ?_, ?_, ?_⟩ <;>
    simp [Multipart.Send, Chan.close, hb, hhp, hbuf, happ]

/-- The concrete builder state after enqueuing `itP`, `itBad`, `itF`. -/
def mW2 : Multipart := { freshBuilder "bnd" reqW with bodyCh := ⟨[itP, itBad, itF], 100, false⟩ }

/-- Witness for C2: a healthy field, then a file whose stream fails, then a
healthy file that must never be encoded. -/
theorem worker_error_short_circuit_witness :
    enqueueAll (freshBuilder "bnd" reqW) ([itP] ++ itBad :: [itF]) = some mW2 ∧
    itemOk itP = true ∧
    itBad.reqType = .fileType ∧
    itBad.content.err = some "content read failed" ∧
    ((mW2.Send).err = some "content read failed" ∧
      (mW2.Send).resp = none ∧
      (mW2.Send).delivered = concatAll (bodySections "bnd" false [itP]) ++
        (createFormFileBytes "bnd" (!([itP] : List request).isEmpty) itBad.key itBad.value ++
          itBad.content.data) ∧
      (mW2.Send).processed = ([itP] : List request).length + 1 ∧
      (mW2.Send).post.bodyCh.buf = [itF]) :=
  ⟨rfl, rfl, rfl, rfl,
    worker_error_short_circuit "bnd" reqW [itP] [itF] itBad "content read failed" mW2
      rfl (by decide) rfl rfl⟩

/-- The bytes of a section after its opening delimiter: header lines, blank
line, then the content; independent of the boundary. -/
def sectionAfterDelim (it : request) : String :=
  match it.reqType with
  | .stringType =>
    "Content-Disposition: form-data; name=\x22" ++ escapeQuotes it.key ++ "\x22\r\n" ++
      "\r\n" ++ it.value
  | .fileType =>
    "Content-Disposition: form-data; name=\x22" ++ escapeQuotes it.key ++
      "\x22; filename=\x22" ++ escapeQuotes it.value ++ "\x22\r\n" ++
      "Content-Type: application/octet-stream\r\n" ++
      "\r\n" ++ it.content.data

/-- Claim C4: the boundary token fixed once at builder creation is the same
string in the `Content-Type` header's boundary parameter and in every section
delimiter of the encoded body, the closing delimiter included: the header
carries exactly `boundary=` followed by `m.boundary`, every section is its
delimiter built from that same boundary followed by boundary-free bytes, and
the body ends with the closing delimiter built from it. -/
theorem boundary_header_body_consistency (b : String) (req : Request)
    (items : List request) (m : Multipart) (hp : Bool) (it : request)
    (hq : needsQuote b = false)
    (henq : enqueueAll (freshBuilder b req) items = some m)
    (hok : ∀ x ∈ items, itemOk x = true) :
    m.boundary = b ∧
    headerGet m.req.headers "Content-Type" =
      some ("multipart/form-data; boundary=" ++ b) ∧
    (m.Send).delivered = concatAll (bodySections b false items) ++ closeBoundaryBytes b ∧
    sectionBytes b hp it = partDelim b hp ++ sectionAfterDelim it ∧
    partDelim b false = "--" ++ b ++ "\r\n" ∧
    partDelim b true = "\r\n" ++ ("--" ++ b ++ "\r\n") ∧
    closeBoundaryBytes b = "\r\n--" ++ b ++ "--\r\n" := by
  obtain ⟨hb, hhp, hreq, hcl, hcap, hbuf⟩ := enqueueAll_some _ _ _ henq
  simp only [freshBuilder, newBodyCh, List.nil_append] at hb hhp hbuf hreq
  have hdrain := workerDrain_allOk b items false hok
  refine ⟨hb, ?_, ?_, ?_, ?_, ?_, rfl⟩
  · rw [hreq]
    simp [headerGet_headerSet, formDataContentType, hq]
  · simp [Multipart.Send, Chan.close, hb, hhp, hbuf, hdrain]
  · obtain ⟨rt, k2, v2, c2⟩ := it
    cases rt <;>
      simp [sectionBytes, sectionAfterDelim, writeFieldBytes, createFormFileBytes,
        strAppend_assoc]
  · simp [partDelim, strEmpty_append]
  · simp [partDelim, strAppend_assoc]
    rw [show ("\r\n--" : String) = "\r\n" ++ "--" from rfl, strAppend_assoc]

/-- Witness for C4 on the two-item builder with a hexadecimal-style boundary. -/
theorem boundary_header_body_consistency_witness :
    needsQuote "bnd" = false ∧
    enqueueAll (freshBuilder "bnd" reqW) [itP, itF] = some mW1 ∧
    itemOk itP = true ∧ itemOk itF = true ∧
    (mW1.boundary = "bnd" ∧
      headerGet mW1.req.headers "Content-Type" =
        some ("multipart/form-data; boundary=" ++ "bnd") ∧
      (mW1.Send).delivered =
        concatAll (bodySections "bnd" false [itP, itF]) ++ closeBoundaryBytes "bnd" ∧
      sectionBytes "bnd" true itF = partDelim "bnd" true ++ sectionAfterDelim itF ∧
      partDelim "bnd" false = "--" ++ "bnd" ++ "\r\n" ∧
      partDelim "bnd" true = "\r\n" ++ ("--" ++ "bnd" ++ "\r\n") ∧
      closeBoundaryBytes "bnd" = "\r\n--" ++ "bnd" ++ "--\r\n") :=
  ⟨by decide, rfl, rfl, rfl,
    boundary_header_body_consistency "bnd" reqW [itP, itF] mW1 true itF
      (by decide) rfl (by decide)⟩

/-- Counterexample to C8 as stated: for the rejected method `BAD METHOD` (the
space is not a token character) `NewMultipart` does not return a builder with
a nil request for later calls to trip over — it already panics itself, with
the nil-pointer dereference raised by `m.req.Header.Set` on line 63. -/
theorem newMultipart_invalid_method_counterexample :
    NewMultipart "bnd" "BAD METHOD" "http://example.com" = .error .nilPointerDeref := by
  rfl

/-- Claim C8 (amended): `NewMultipart` discards the error from constructing
the HTTP request and never reports failure through its return value; but for
every method/URL that request construction rejects, the constructor itself
panics with a nil-pointer dereference while setting the `Content-Type` header
on the nil request — it does not return a builder, so no later `Header` or
`Send` call is reached. -/
theorem newMultipart_construction_failure_panics (b method url : String)
    (h : newRequestWithContext method url = none) :
    NewMultipart b method url = .error .nilPointerDeref := by
  simp [NewMultipart, h]

/-- Witness for the amended C8 at the concrete rejected method. -/
theorem newMultipart_construction_failure_panics_witness :
    newRequestWithContext "BAD METHOD" "http://example.com" = none ∧
    NewMultipart "bnd2" "BAD METHOD" "http://example.com" = .error .nilPointerDeref :=
  ⟨rfl, newMultipart_construction_failure_panics "bnd2" "BAD METHOD" "http://example.com" rfl⟩

/-- Claim C9: after `Send` has closed the work queue, every further enqueue
call — `Param`, `Bool`, `Int`, `Float`, `File` — panics (send on the closed
channel), whereas `Header` does not panic: it silently rewrites the header set
of the already-sent request and changes nothing else on the builder. -/
theorem post_send_enqueue_panics (m : Multipart) (kk v f : String) (bv : Bool)
    (n : Int) (x : GoFloat) (fmtFloat : GoFloat → String) (content : GoReader) :
    (m.Send).post.bodyCh.closed = true ∧
    (m.Send).post.Param kk v = .panicked ∧
    (m.Send).post.Bool kk bv = .panicked ∧
    (m.Send).post.Int kk n = .panicked ∧
    Multipart.Float fmtFloat (m.Send).post kk x = .panicked ∧
    (m.Send).post.File kk f content = .panicked ∧
    (m.Send).post.Header kk v =
      { (m.Send).post with req := { (m.Send).post.req with
          headers := headerSet (m.Send).post.req.headers kk v } } := by
  have hcl : (m.Send).post.bodyCh.closed = true := by
    cases habort : (workerDrain m.boundary m.hasPart m.bodyCh.buf).abortErr with
    | none => simp [Multipart.Send, Chan.close, habort]
    | some e => simp [Multipart.Send, Chan.close, habort]
  refine ⟨hcl, ?_, ?_, ?_, ?_, ?_, rfl⟩ <;>
    simp [Multipart.Param, Multipart.Bool, Multipart.Int, Multipart.Float,
      Multipart.File, Multipart.enqueue, Chan.send, hcl]

/-- Claim C10: the work queue is a bounded channel of capacity 100: any
sequence of at most 100 enqueue calls on a fresh builder completes without
blocking even though the worker has drained nothing, while an enqueue with 100
items already pending blocks until the worker removes one. -/
theorem bounded_queue_capacity_100 (b : String) (req : Request)
    (items : List request) (mFull : Multipart) (kk v : String)
    (hlen : items.length ≤ 100)
    (hcap : mFull.bodyCh.cap = 100) (hopen : mFull.bodyCh.closed = false)
    (hfull : mFull.bodyCh.buf.length = 100) :
    (enqueueAll (freshBuilder b req) items).isSome = true ∧
    mFull.Param kk v = .blocked := by
  constructor
  · apply enqueueAll_isSome
    · simp [freshBuilder, newBodyCh]
    · simpa [freshBuilder, newBodyCh] using hlen
  · simp [Multipart.Param, Multipart.enqueue, Chan.send, hopen, hcap, hfull]

/-- A builder whose queue already holds 100 pending items. -/
def mFullW : Multipart := ⟨"bnd", false, ⟨List.replicate 100 itP, 100, false⟩, reqW⟩

/-- Witness for C10: 100 concrete enqueues succeed on a fresh builder, and a
`Param` on the 100-item-full builder blocks. -/
theorem bounded_queue_capacity_100_witness :
    (List.replicate 100 itP).length ≤ 100 ∧
    mFullW.bodyCh.cap = 100 ∧ mFullW.bodyCh.closed = false ∧
    mFullW.bodyCh.buf.length = 100 ∧
    ((enqueueAll (freshBuilder "bnd" reqW) (List.replicate 100 itP)).isSome = true ∧
      mFullW.Param "c" "v" = .blocked) :=
  ⟨by simp, rfl, rfl, by simp [mFullW],
    bounded_queue_capacity_100 "bnd" reqW (List.replicate 100 itP) mFullW "c" "v"
      (by simp) rfl rfl (by simp [mFullW])⟩
